import Mathlib

/-!
Formal model of the dance-feedback extraction and session-aggregation core of
`backend/app/api/analysis.py`: the response-text parsing loop in
`analyze_with_gemini` and the session-score bookkeeping in `analyze_dance`.

Python strings are modelled as lists of characters (`str` indexing, slicing
and `len` are per code point, as are `List Char` operations); numeric scores
are modelled as rationals.
-/

namespace DanceMotion

/-- Code points of the characters Python's `str.isspace()` accepts (the set
`str.strip()` removes): ASCII whitespace, the information separators, NEL,
NBSP, and the Unicode space separators up to the ideographic space. -/
def pySpaceCodes : List Nat :=
  [0x9, 0xa, 0xb, 0xc, 0xd, 0x1c, 0x1d, 0x1e, 0x1f, 0x20, 0x85, 0xa0,
   0x1680, 0x2000, 0x2001, 0x2002, 0x2003, 0x2004, 0x2005, 0x2006, 0x2007,
   0x2008, 0x2009, 0x200a, 0x2028, 0x2029, 0x202f, 0x205f, 0x3000]

/-- Python `str.isspace` on a single character. -/
def isPySpace (c : Char) : Bool :=
  pySpaceCodes.contains c.toNat

/-- First code points of the 66 ten-character blocks of Unicode category Nd
(decimal digits), the class Python's `re` matches for `\d` on `str` patterns
and that `int()`/`float()` convert: ASCII digits, Arabic-Indic, the Indic
scripts, Thai, fullwidth digits, mathematical digits, and the rest. -/
def ndStarts : List Nat :=
  [0x30, 0x660, 0x6f0, 0x7c0, 0x966, 0x9e6, 0xa66, 0xae6, 0xb66, 0xbe6,
   0xc66, 0xce6, 0xd66, 0xde6, 0xe50, 0xed0, 0xf20, 0x1040, 0x1090, 0x17e0,
   0x1810, 0x1946, 0x19d0, 0x1a80, 0x1a90, 0x1b50, 0x1bb0, 0x1c40, 0x1c50,
   0xa620, 0xa8d0, 0xa900, 0xa9d0, 0xa9f0, 0xaa50, 0xabf0, 0xff10, 0x104a0,
   0x10d30, 0x11066, 0x110f0, 0x11136, 0x111d0, 0x112f0, 0x11450, 0x114d0,
   0x11650, 0x116c0, 0x11730, 0x118e0, 0x11950, 0x11c50, 0x11d50, 0x11da0,
   0x16a60, 0x16ac0, 0x16b50, 0x1d7ce, 0x1d7d8, 0x1d7e2, 0x1d7ec, 0x1d7f6,
   0x1e140, 0x1e2f0, 0x1e950, 0x1fbf0]

/-- Python `\d` on one character: a Unicode decimal digit (category Nd). -/
def isPyDigit (c : Char) : Bool :=
  ndStarts.any (fun s => s ≤ c.toNat && c.toNat < s + 10)

/-- Decimal value of a Unicode decimal digit (`unicodedata.decimal`), 0 on
non-digits (never reached on digit runs). -/
def pyDigitVal (c : Char) : Nat :=
  match ndStarts.find? (fun s => s ≤ c.toNat && c.toNat < s + 10) with
  | some s => c.toNat - s
  | none => 0

/-- Python `s.strip()`: remove leading and trailing whitespace. -/
def pyStrip (l : List Char) : List Char :=
  ((l.dropWhile isPySpace).reverse.dropWhile isPySpace).reverse

/-- Python `s.lstrip(chars)`: remove every leading character that belongs to
the character set `chars`. -/
def pyLstrip (chars : List Char) (l : List Char) : List Char :=
  l.dropWhile (fun c => chars.contains c)

/-- Python `s.split(sep)` for a one-character separator, as used by
`text.split('\n')` and `line.split(':')`. -/
def splitOnChar (c : Char) : List Char → List (List Char)
  | [] => [[]]
  | x :: xs =>
    if x == c then [] :: splitOnChar c xs
    else
      match splitOnChar c xs with
      | [] => [[x]]
      | h :: t => (x :: h) :: t

/-- Python `pat in s` substring containment. -/
def hasSubstr (hay pat : List Char) : Bool :=
  pat.isPrefixOf hay ||
    match hay with
    | [] => false
    | _ :: t => hasSubstr t pat

/-- Python `re.search(r'\d+', s)`: the first maximal run of Unicode decimal
digits of `s`, if any. -/
def firstDigitRun : List Char → Option (List Char)
  | [] => none
  | c :: t =>
    if isPyDigit c then some (c :: t.takeWhile isPyDigit)
    else firstDigitRun t

/-- Numeric value of a decimal-digit run (`float(m.group())` on a `\d+` match
is a nonnegative integer value, each character contributing its decimal
value). -/
def digitsToNat (l : List Char) : Nat :=
  l.foldl (fun acc c => acc * 10 + pyDigitVal c) 0

/-- The score-marker literal `'スコア:'`. -/
def scoreMarker : List Char := "スコア:".data

/-- The good-points section marker `'良い点:'`. -/
def goodMarker : List Char := "良い点:".data

/-- The improvement-areas section marker `'改善点:'`. -/
def improveMarker : List Char := "改善点:".data

/-- The long advice section marker `'具体的なアドバイス:'`. -/
def adviceLongMarker : List Char := "具体的なアドバイス:".data

/-- The short advice section marker `'アドバイス:'`. -/
def adviceShortMarker : List Char := "アドバイス:".data

/-- The dash bullet prefix `'- '`. -/
def bulletDash : List Char := "- ".data

/-- The middle-dot bullet prefix `'・'`. -/
def bulletDot : List Char := "・".data

/-- The character set handed to `line.lstrip('- ・')`. -/
def bulletStripSet : List Char := "- ・".data

/-- The parser's `current_section` states. -/
inductive FSection
  | good
  | improve
  | advice
deriving DecidableEq

/-- The mutable state of the line loop in `analyze_with_gemini`: the score
accumulator, the three point lists and `current_section`. -/
structure PState where
  score : ℚ
  good_points : List (List Char)
  improvement_areas : List (List Char)
  specific_advice : List (List Char)
  current_section : Option FSection
deriving DecidableEq

/-- Initial loop state: `score = 70`, empty lists, no current section. -/
def initState : PState :=
  { score := 70
    good_points := []
    improvement_areas := []
    specific_advice := []
    current_section := none }

/-- One iteration of the `for line in lines` loop of `analyze_with_gemini`
(lines 139-168 of `analysis.py`): strip the line, skip it when empty,
otherwise dispatch on the score marker, the three section markers, and the
two bullet prefixes, in that order. The score branch models
`line.split(':')[1].strip()` followed by `re.search(r'\d+', ...)`, with the
surrounding try/except absorbing a missing `[1]` element. -/
def processLine (st : PState) (raw : List Char) : PState :=
  let line := pyStrip raw
  if line.isEmpty then st
  else if hasSubstr line scoreMarker then
    match (splitOnChar ':' line).get? 1 with
    | none => st
    | some seg =>
      match firstDigitRun (pyStrip seg) with
      | some run => { st with score := (digitsToNat run : ℚ) }
      | none => st
  else if hasSubstr line goodMarker then
    { st with current_section := some FSection.good }
  else if hasSubstr line improveMarker then
    { st with current_section := some FSection.improve }
  else if hasSubstr line adviceLongMarker || hasSubstr line adviceShortMarker then
    { st with current_section := some FSection.advice }
  else if bulletDash.isPrefixOf line || bulletDot.isPrefixOf line then
    let point := pyStrip (pyLstrip bulletStripSet line)
    if point.isEmpty then st
    else
      match st.current_section with
      | some FSection.good =>
        { st with good_points := st.good_points ++ [point.take 15] }
      | some FSection.improve =>
        { st with improvement_areas := st.improvement_areas ++ [point.take 15] }
      | some FSection.advice =>
        { st with specific_advice := st.specific_advice ++ [point.take 20] }
      | none => st
  else st

/-- The structured record `analyze_with_gemini` returns. -/
structure FeedbackRecord where
  score : ℚ
  good_points : List String
  improvement_areas : List String
  specific_advice : List String
  raw_feedback : String
deriving DecidableEq

/-- The parsing part of `analyze_with_gemini`: split the response text into
lines, run the loop, and package the result (lines 129-176 of
`analysis.py`). -/
def parseFeedback (text : String) : FeedbackRecord :=
  let st := (splitOnChar '\n' text.data).foldl processLine initState
  { score := st.score
    good_points := st.good_points.map String.mk
    improvement_areas := st.improvement_areas.map String.mk
    specific_advice := st.specific_advice.map String.mk
    raw_feedback := text }

/-- Outcome view of `analyze_with_gemini`: the external call either
yields a response text (parsed as above) or raises, in which case the
`except` branch (lines 178-186) returns the fixed fallback record. -/
def analyzeWithGemini (response : Except String String) : FeedbackRecord :=
  match response with
  | Except.ok text => parseFeedback text
  | Except.error e =>
    { score := 50
      good_points := ["動いてる！"]
      improvement_areas := ["もっと大きく"]
      specific_advice := ["リズムを意識"]
      raw_feedback := "Analysis error: " ++ e }

/-- The summary fields of a `DanceSession` row touched by `analyze_dance`:
`overall_score`, `best_score`, `improvement_rate`, each nullable. -/
structure SessionSummary where
  overall_score : Option ℚ
  best_score : Option ℚ
  improvement_rate : Option ℚ
deriving DecidableEq

/-- A fresh session: all three summary fields are null. -/
def emptySummary : SessionSummary :=
  { overall_score := none, best_score := none, improvement_rate := none }

/-- Python `sum(l) / len(l)` over rationals. -/
def mean (l : List ℚ) : ℚ := l.sum / (l.length : ℚ)

/-- Python `max(l)` on a nonempty list (`0` as a junk value on `[]`,
never reached under `analyze_dance`'s nonemptiness guard). -/
def listMax : List ℚ → ℚ
  | [] => 0
  | x :: xs => xs.foldl max x

/-- Python `l[i:]` for an `Int` index: a negative index counts from the end
of the list. -/
def pySliceFrom (l : List ℚ) (i : Int) : List ℚ :=
  if i < 0 then l.drop (l.length - min (-i).toNat l.length)
  else l.drop i.toNat

/-- The early window `scores[:len(scores)//3]` of line 308. -/
def earlyWindow (scores : List ℚ) : List ℚ :=
  scores.take (scores.length / 3)

/-- The late window `scores[-len(scores)//3:]` of line 309. In Python the
index expression parses as `(-len(scores)) // 3` with floored division. -/
def lateWindow (scores : List ℚ) : List ℚ :=
  pySliceFrom scores (Int.fdiv (-(scores.length : Int)) 3)

/-- The session-summary update block of `analyze_dance` (lines 301-312 of
`analysis.py`): when the score history is nonempty, set `overall_score` to
the mean and `best_score` to the maximum, and when it has at least three
entries also set `improvement_rate` from the early/late windows, guarding
against a zero (or negative) early average. -/
def updateSessionScores (session : SessionSummary) (scores : List ℚ) : SessionSummary :=
  if scores.isEmpty then session
  else
    let afterMean :=
      { session with
          overall_score := some (mean scores)
          best_score := some (listMax scores) }
    if 3 ≤ scores.length then
      let early_avg := mean (earlyWindow scores)
      let late_avg := mean (lateWindow scores)
      { afterMean with
          improvement_rate :=
            some (if 0 < early_avg then (late_avg - early_avg) / early_avg * 100 else 0) }
    else afterMean

/-- Segment of `l` strictly between its first and second occurrence of `c`
(up to the end of `l` when there is no second occurrence); `none` when `c`
does not occur. Used to characterize `line.split(':')[1]`. -/
def segmentAfter (c : Char) : List Char → Option (List Char)
  | [] => none
  | x :: xs => if x == c then some (xs.takeWhile (fun d => !(d == c))) else segmentAfter c xs

/-- Follows the claim wording (amended C2): a line containing the score
marker updates the score to the numeric value of the first digit run found
in the segment of the line between its first and second ASCII colon (to the
end of the line when there is no second colon), and leaves it unchanged when
that segment holds no digits; any other line leaves the score unchanged. -/
def claimedScoreStep (s : ℚ) (raw : List Char) : ℚ :=
  if (pyStrip raw).isEmpty then s
  else if hasSubstr (pyStrip raw) scoreMarker then
    match segmentAfter ':' (pyStrip raw) with
    | none => s
    | some seg =>
      match firstDigitRun (pyStrip seg) with
      | some run => (digitsToNat run : ℚ)
      | none => s
  else s

/-- Predicate on a raw line: the score branch of the loop fires and finds a
digit run, i.e. the line (once stripped) is nonempty, contains the score
marker, and `re.search(r'\d+', line.split(':')[1].strip())` matches. -/
def scoreTrigger (raw : List Char) : Bool :=
  !(pyStrip raw).isEmpty && hasSubstr (pyStrip raw) scoreMarker &&
    (match (splitOnChar ':' (pyStrip raw)).get? 1 with
     | none => false
     | some seg => (firstDigitRun (pyStrip seg)).isSome)

/-- Follows the claim wording of C1: the improvement rate computed with an
early window of the first `floor(n/3)` elements and a late window of the
last `floor(n/3)` elements. -/
def claimedImprovementRate (scores : List ℚ) : Option ℚ :=
  if 3 ≤ scores.length then
    some (if 0 < mean (scores.take (scores.length / 3)) then
            (mean (scores.drop (scores.length - scores.length / 3)) -
                mean (scores.take (scores.length / 3))) /
              mean (scores.take (scores.length / 3)) * 100
          else 0)
  else none

/-- Follows the claim wording of C9: strip exactly the bullet prefix (one of
the two accepted glyphs) and surrounding whitespace from a line. -/
def claimedStripBullet (line : List Char) : List Char :=
  if bulletDash.isPrefixOf line then pyStrip (line.drop 2)
  else if bulletDot.isPrefixOf line then pyStrip (line.drop 1)
  else line

/-! Helper lemmas about the parsing loop. -/

lemma splitOnChar_ne_nil (c : Char) (l : List Char) : splitOnChar c l ≠ [] := by
  cases l with
  | nil => simp [splitOnChar]
  | cons x xs =>
    simp only [splitOnChar]
    split
    · simp
    · split
      · simp
      · simp

lemma splitOnChar_head (c : Char) (l : List Char) :
    (splitOnChar c l).get? 0 = some (l.takeWhile (fun d => !(d == c))) := by
  induction l with
  | nil => rfl
  | cons x xs ih =>
    simp only [splitOnChar]
    by_cases h : x == c
    · rw [if_pos h]
      simp [List.takeWhile, h]
    · rw [if_neg h]
      cases hsplit : splitOnChar c xs with
      | nil => exact absurd hsplit (splitOnChar_ne_nil c xs)
      | cons hd tl =>
        rw [hsplit] at ih
        simp only [List.get?] at ih
        simp [List.takeWhile, h, Option.some.injEq] at ih ⊢
        exact ih

lemma splitOnChar_get_one (c : Char) (l : List Char) :
    (splitOnChar c l).get? 1 = segmentAfter c l := by
  induction l with
  | nil => rfl
  | cons x xs ih =>
    simp only [splitOnChar, segmentAfter]
    by_cases h : x == c
    · rw [if_pos h, if_pos h]
      simpa using splitOnChar_head c xs
    · rw [if_neg h, if_neg h]
      cases hsplit : splitOnChar c xs with
      | nil => exact absurd hsplit (splitOnChar_ne_nil c xs)
      | cons hd tl =>
        rw [hsplit] at ih
        simpa using ih

lemma processLine_score (st : PState) (raw : List Char) :
    (processLine st raw).score = claimedScoreStep st.score raw := by
  simp only [processLine, claimedScoreStep, ← splitOnChar_get_one]
  repeat' split
  all_goals rfl

lemma processLine_score_of_no_trigger (st : PState) (raw : List Char)
    (h : scoreTrigger raw = false) :
    (processLine st raw).score = st.score := by
  simp only [scoreTrigger, Bool.and_eq_false_iff] at h
  simp only [processLine]
  repeat' split
  all_goals try rfl
  all_goals simp_all

lemma processLine_bounds (st : PState) (raw : List Char)
    (hg : ∀ p ∈ st.good_points, p.length ≤ 15)
    (hi : ∀ p ∈ st.improvement_areas, p.length ≤ 15)
    (ha : ∀ p ∈ st.specific_advice, p.length ≤ 20) :
    (∀ p ∈ (processLine st raw).good_points, p.length ≤ 15) ∧
    (∀ p ∈ (processLine st raw).improvement_areas, p.length ≤ 15) ∧
    (∀ p ∈ (processLine st raw).specific_advice, p.length ≤ 20) := by
  simp only [processLine]
  repeat' split
  all_goals
    refine ⟨fun p hp => ?_, fun p hp => ?_, fun p hp => ?_⟩ <;>
    simp only [List.mem_append, List.mem_singleton] at hp <;>
    first
      | (rcases hp with hp | rfl
         · first | exact hg p hp | exact hi p hp | exact ha p hp
         · simp [List.length_take])
      | exact hg p hp
      | exact hi p hp
      | exact ha p hp

lemma foldl_score_eq (lines : List (List Char)) :
    ∀ st : PState, (lines.foldl processLine st).score = lines.foldl claimedScoreStep st.score := by
  induction lines with
  | nil => intro st; rfl
  | cons l ls ih =>
    intro st
    rw [List.foldl_cons, List.foldl_cons, ih, processLine_score]

lemma foldl_score_unchanged (lines : List (List Char)) :
    ∀ st : PState, (∀ l ∈ lines, scoreTrigger l = false) →
      (lines.foldl processLine st).score = st.score := by
  induction lines with
  | nil => intro st _; rfl
  | cons l ls ih =>
    intro st h
    rw [List.foldl_cons, ih _ (fun m hm => h m (List.mem_cons_of_mem _ hm)),
      processLine_score_of_no_trigger st l (h l (List.mem_cons_self _ _))]

/-! Helper lemmas about the aggregation step. -/

lemma fdiv_neg_three (n : ℕ) : Int.fdiv (-(n : Int)) 3 = -(((n + 2) / 3 : ℕ) : Int) := by
  rw [Int.fdiv_eq_ediv _ (by norm_num : (0 : Int) ≤ 3)]
  omega

lemma lateWindow_eq (l : List ℚ) (h : 1 ≤ l.length) :
    lateWindow l = l.drop (l.length - (l.length + 2) / 3) := by
  unfold lateWindow pySliceFrom
  rw [fdiv_neg_three]
  have hk1 : 1 ≤ (l.length + 2) / 3 := by omega
  have hk2 : (l.length + 2) / 3 ≤ l.length := by omega
  rw [if_pos (by omega : -(((l.length + 2) / 3 : ℕ) : Int) < 0)]
  congr 1
  omega

lemma foldl_max_mem_or (a : ℚ) (l : List ℚ) : l.foldl max a = a ∨ l.foldl max a ∈ l := by
  induction l generalizing a with
  | nil => left; rfl
  | cons x xs ih =>
    rw [List.foldl_cons]
    rcases ih (max a x) with h | h
    · rcases max_choice a x with hc | hc
      · left; rw [h, hc]
      · right; rw [h, hc]; exact List.mem_cons_self _ _
    · right; exact List.mem_cons_of_mem _ h

lemma le_foldl_max (a : ℚ) (l : List ℚ) :
    a ≤ l.foldl max a ∧ ∀ x ∈ l, x ≤ l.foldl max a := by
  induction l generalizing a with
  | nil => exact ⟨le_refl a, by simp⟩
  | cons y ys ih =>
    obtain ⟨h1, h2⟩ := ih (max a y)
    rw [List.foldl_cons]
    refine ⟨le_trans (le_max_left a y) h1, ?_⟩
    intro x hx
    rcases List.mem_cons.mp hx with rfl | hx
    · exact le_trans (le_max_right a x) h1
    · exact h2 x hx

lemma listMax_mem (l : List ℚ) (h : l ≠ []) : listMax l ∈ l := by
  cases l with
  | nil => exact absurd rfl h
  | cons x xs =>
    simp only [listMax]
    rcases foldl_max_mem_or x xs with h' | h'
    · rw [h']; exact List.mem_cons_self _ _
    · exact List.mem_cons_of_mem _ h'

lemma listMax_is_ub (l : List ℚ) : ∀ x ∈ l, x ≤ listMax l := by
  cases l with
  | nil => simp
  | cons y ys =>
    intro x hx
    simp only [listMax]
    rcases List.mem_cons.mp hx with rfl | hx
    · exact (le_foldl_max x ys).1
    · exact (le_foldl_max y ys).2 x hx

/-! Claim theorems. -/

/-- C3: extraction never propagates an exception to the caller; whenever the
external call or the interpretation of its output raises, the returned
record has score exactly 50, the three point lists are the fixed non-empty
fallback values, and the raw-text field describes the error. -/
theorem fallback_record_on_error (e : String) :
    (analyzeWithGemini (Except.error e)).score = 50 ∧
    (analyzeWithGemini (Except.error e)).good_points = ["動いてる！"] ∧
    (analyzeWithGemini (Except.error e)).improvement_areas = ["もっと大きく"] ∧
    (analyzeWithGemini (Except.error e)).specific_advice = ["リズムを意識"] ∧
    (analyzeWithGemini (Except.error e)).good_points ≠ [] ∧
    (analyzeWithGemini (Except.error e)).improvement_areas ≠ [] ∧
    (analyzeWithGemini (Except.error e)).specific_advice ≠ [] ∧
    (analyzeWithGemini (Except.error e)).raw_feedback = "Analysis error: " ++ e :=
  ⟨rfl, rfl, rfl, rfl, by simp [analyzeWithGemini], by simp [analyzeWithGemini],
    by simp [analyzeWithGemini], rfl⟩

/-- C4: for every input text, every string appended to `good_points` and to
`improvement_areas` has length at most 15 characters, and every string
appended to `specific_advice` has length at most 20 characters. -/
theorem point_length_bounds (text : String) :
    (∀ s ∈ (parseFeedback text).good_points, s.length ≤ 15) ∧
    (∀ s ∈ (parseFeedback text).improvement_areas, s.length ≤ 15) ∧
    (∀ s ∈ (parseFeedback text).specific_advice, s.length ≤ 20) := by
  have key : ∀ lines : List (List Char), ∀ st : PState,
      (∀ p ∈ st.good_points, p.length ≤ 15) →
      (∀ p ∈ st.improvement_areas, p.length ≤ 15) →
      (∀ p ∈ st.specific_advice, p.length ≤ 20) →
      (∀ p ∈ (lines.foldl processLine st).good_points, p.length ≤ 15) ∧
      (∀ p ∈ (lines.foldl processLine st).improvement_areas, p.length ≤ 15) ∧
      (∀ p ∈ (lines.foldl processLine st).specific_advice, p.length ≤ 20) := by
    intro lines
    induction lines with
    | nil => intro st hg hi ha; exact ⟨hg, hi, ha⟩
    | cons l ls ih =>
      intro st hg hi ha
      obtain ⟨hg', hi', ha'⟩ := processLine_bounds st l hg hi ha
      exact ih _ hg' hi' ha'
  obtain ⟨hg, hi, ha⟩ := key (splitOnChar '\n' text.data) initState
    (by simp [initState]) (by simp [initState]) (by simp [initState])
  simp only [parseFeedback]
  refine ⟨fun s hs => ?_, fun s hs => ?_, fun s hs => ?_⟩ <;>
    simp only [List.mem_map] at hs <;>
    obtain ⟨p, hp, rfl⟩ := hs
  · exact hg p hp
  · exact hi p hp
  · exact ha p hp

/-- Witness for C4 at a concrete input: a 20-character bullet under the
good-points section is stored truncated to 15 characters. -/
theorem point_length_bounds_witness :
    ("あいうえおかきくけこさしすせそ" : String).length ≤ 15 :=
  (point_length_bounds "良い点:\n- あいうえおかきくけこさしすせそたちつてと").1
    "あいうえおかきくけこさしすせそ" (by decide)

/-- C7: for every input text in which no score-marker line yields a digit
run (including texts lacking the marker entirely), the returned score is the
non-extraction default 70, not the full-failure fallback 50. -/
theorem default_score_without_extraction (text : String)
    (h : ∀ l ∈ splitOnChar '\n' text.data, scoreTrigger l = false) :
    (parseFeedback text).score = 70 := by
  simp only [parseFeedback]
  rw [foldl_score_unchanged (splitOnChar '\n' text.data) initState h]
  rfl

/-- Witness for C7 at a concrete input with no score marker at all. -/
theorem default_score_without_extraction_witness :
    (parseFeedback "良い点:\n- キレがある").score = 70 :=
  default_score_without_extraction "良い点:\n- キレがある" (by decide)

/-- C2 (amended): the final score is computed line by line; a line containing
the score marker sets it to the numeric value of the first digit run found
in the segment of the line between its first and second ASCII colon (to the
end of the line when there is no second colon) and leaves it unchanged when
that segment holds no digits; digit runs after the second colon are ignored
even when they follow the marker. -/
theorem score_extraction_segment (text : String) :
    (parseFeedback text).score = (splitOnChar '\n' text.data).foldl claimedScoreStep 70 := by
  simp only [parseFeedback]
  exact foldl_score_eq (splitOnChar '\n' text.data) initState

/-- Counterexample to C2 as stated: in the line `"スコア:: 85"` the marker is
present and the first digit run after it is 85, yet the parsed score is the
untouched default 70, because `split(':')[1]` is the empty segment between
the two colons. -/
theorem score_segment_cex :
    hasSubstr (pyStrip "スコア:: 85".data) scoreMarker = true ∧
    firstDigitRun "スコア:: 85".data = some ['8', '5'] ∧
    digitsToNat ['8', '5'] = 85 ∧
    (parseFeedback "スコア:: 85").score = 70 ∧
    (parseFeedback "スコア:: 85").score ≠ 85 := by
  refine ⟨by decide, by decide, by decide, by decide, by decide⟩

/-- C5: for every nonempty score history, the summary update sets
`overall_score` to the arithmetic mean of the full history and `best_score`
to its maximum, independent of any previous summary value. -/
theorem summary_mean_and_max (prev alt : SessionSummary) (scores : List ℚ)
    (h : scores ≠ []) :
    (updateSessionScores prev scores).overall_score =
      some (scores.sum / (scores.length : ℚ)) ∧
    (∃ m, (updateSessionScores prev scores).best_score = some m ∧
      m ∈ scores ∧ ∀ x ∈ scores, x ≤ m) ∧
    (updateSessionScores prev scores).overall_score =
      (updateSessionScores alt scores).overall_score ∧
    (updateSessionScores prev scores).best_score =
      (updateSessionScores alt scores).best_score := by
  have hne : scores.isEmpty = false := by simpa [List.isEmpty_iff] using h
  have hover : ∀ s : SessionSummary,
      (updateSessionScores s scores).overall_score = some (mean scores) := by
    intro s
    simp only [updateSessionScores, hne, Bool.false_eq_true, if_false]
    split <;> rfl
  have hbest : ∀ s : SessionSummary,
      (updateSessionScores s scores).best_score = some (listMax scores) := by
    intro s
    simp only [updateSessionScores, hne, Bool.false_eq_true, if_false]
    split <;> rfl
  exact ⟨hover prev,
    ⟨listMax scores, hbest prev, listMax_mem scores h, listMax_is_ub scores⟩,
    by rw [hover, hover], by rw [hbest, hbest]⟩

/-- Witness for C5 on the history `[80, 90, 70]`: mean 80, maximum 90. -/
theorem summary_mean_and_max_witness :
    (updateSessionScores emptySummary [80, 90, 70]).overall_score = some 80 ∧
    (updateSessionScores emptySummary [80, 90, 70]).best_score = some 90 := by
  obtain ⟨hover, ⟨m, hm, hmem, hub⟩, -, -⟩ :=
    summary_mean_and_max emptySummary emptySummary [80, 90, 70] (by decide)
  constructor
  · rw [hover]
    norm_num [List.sum_cons, List.sum_nil]
  · have h90 : m = 90 := by
      have h1 := hub 90 (by norm_num)
      simp only [List.mem_cons, List.not_mem_nil, or_false] at hmem
      rcases hmem with rfl | rfl | rfl
      · exact absurd h1 (by norm_num)
      · rfl
      · exact absurd h1 (by norm_num)
    rw [hm, h90]

/-- C6: for every history of length at least 3 whose early-window mean is 0,
the improvement rate is defined as exactly 0 and no division error occurs. -/
theorem zero_early_mean_rate (prev : SessionSummary) (scores : List ℚ)
    (h3 : 3 ≤ scores.length) (h0 : mean (earlyWindow scores) = 0) :
    (updateSessionScores prev scores).improvement_rate = some 0 := by
  have hne : scores.isEmpty = false := by
    cases scores with
    | nil => simp at h3
    | cons a l => rfl
  simp only [updateSessionScores, hne, Bool.false_eq_true, if_false, if_pos h3, h0]
  norm_num

/-- Witness for C6 on the history `[0, 0, 0, 100]` of the spec's test list. -/
theorem zero_early_mean_rate_witness :
    (updateSessionScores emptySummary [0, 0, 0, 100]).improvement_rate = some 0 := by
  refine zero_early_mean_rate emptySummary [0, 0, 0, 100] (by decide) ?_
  have he : earlyWindow [0, 0, 0, 100] = [0] := by decide
  rw [he]
  simp [mean]

/-- C10: for the empty history the summary update leaves the session record
entirely unchanged, and for histories of length 1 or 2 the improvement rate
is left unchanged. -/
theorem small_history_preserves (prev : SessionSummary) (scores : List ℚ) :
    (scores = [] → updateSessionScores prev scores = prev) ∧
    ((scores.length = 1 ∨ scores.length = 2) →
      (updateSessionScores prev scores).improvement_rate = prev.improvement_rate) := by
  constructor
  · rintro rfl
    simp [updateSessionScores]
  · intro h
    have hne : scores.isEmpty = false := by
      cases scores with
      | nil => simp at h
      | cons a l => rfl
    have h3 : ¬ 3 ≤ scores.length := by omega
    simp only [updateSessionScores, hne, Bool.false_eq_true, if_false, if_neg h3]

/-- Witness for C10 on the empty history and on a length-2 history, with a
previous summary whose fields are all set. -/
theorem small_history_preserves_witness :
    updateSessionScores ⟨some 1, some 2, some 3⟩ [] = ⟨some 1, some 2, some 3⟩ ∧
    (updateSessionScores ⟨some 1, some 2, some 3⟩ [80, 90]).improvement_rate = some 3 :=
  ⟨(small_history_preserves ⟨some 1, some 2, some 3⟩ []).1 rfl,
    (small_history_preserves ⟨some 1, some 2, some 3⟩ [80, 90]).2 (Or.inr rfl)⟩

/-- C8: the extracted score is never clamped into `[0, 100]`: the input
whose score line carries the digit run 950 produces a record with score 950,
outside the declared domain, and that value flows into the aggregates
unmodified. -/
theorem unclamped_score_propagates :
    (parseFeedback "スコア: 950").score = 950 ∧
    ¬ (parseFeedback "スコア: 950").score ≤ 100 ∧
    (updateSessionScores emptySummary [(parseFeedback "スコア: 950").score]).overall_score =
      some 950 ∧
    (updateSessionScores emptySummary [(parseFeedback "スコア: 950").score]).best_score =
      some 950 := by
  have hs : (parseFeedback "スコア: 950").score = 950 := by decide
  rw [hs]
  have hup : updateSessionScores emptySummary [(950 : ℚ)] =
      { emptySummary with
          overall_score := some (mean [(950 : ℚ)])
          best_score := some (listMax [(950 : ℚ)]) } := by
    simp [updateSessionScores]
  rw [hup]
  refine ⟨rfl, by norm_num, ?_, rfl⟩
  simp [mean]

/-- Counterexample to C1 as stated: on the history `[100, 0, 0, 100]`
(`n = 4`) the code's late window is `scores[-4//3:] = scores[-2:]`, the last
two elements, so the computed rate is -50, while the claimed windows (early
= late = one element) would give rate 0. -/
theorem late_window_floor_cex :
    (updateSessionScores emptySummary [100, 0, 0, 100]).improvement_rate = some (-50) ∧
    claimedImprovementRate [100, 0, 0, 100] = some 0 ∧
    some (-50 : ℚ) ≠ some (0 : ℚ) := by
  refine ⟨?_, ?_, by norm_num⟩
  · have he : earlyWindow [100, 0, 0, 100] = [100] := by decide
    have hl : lateWindow [100, 0, 0, 100] = [0, 100] := by decide
    have hne : ([100, 0, 0, 100] : List ℚ).isEmpty = false := by decide
    simp only [updateSessionScores, hne, Bool.false_eq_true, if_false,
      if_pos (by decide : 3 ≤ ([100, 0, 0, 100] : List ℚ).length), he, hl]
    norm_num [mean, List.sum_cons, List.sum_nil]
  · have ht : ([100, 0, 0, 100] : List ℚ).take (([100, 0, 0, 100] : List ℚ).length / 3) =
        [100] := by decide
    have hd : ([100, 0, 0, 100] : List ℚ).drop
        (([100, 0, 0, 100] : List ℚ).length - ([100, 0, 0, 100] : List ℚ).length / 3) =
        [100] := by decide
    simp only [claimedImprovementRate,
      if_pos (by decide : 3 ≤ ([100, 0, 0, 100] : List ℚ).length), ht, hd]
    norm_num [mean, List.sum_cons, List.sum_nil]

/-- C1 (amended): for every history of length `n ≥ 3` with positive
early-window mean, the improvement rate uses an early window of the first
`floor(n/3)` elements but a late window of the last `ceil(n/3)` elements
(Python's floored negative division makes `scores[-n//3:]` keep the last
`ceil(n/3)` entries), and equals
`(late_mean - early_mean) / early_mean * 100`. -/
theorem improvement_rate_windows (prev : SessionSummary) (scores : List ℚ)
    (h3 : 3 ≤ scores.length)
    (hpos : 0 < mean (scores.take (scores.length / 3))) :
    (updateSessionScores prev scores).improvement_rate =
      some ((mean (scores.drop (scores.length - (scores.length + 2) / 3)) -
              mean (scores.take (scores.length / 3))) /
            mean (scores.take (scores.length / 3)) * 100) := by
  have hne : scores.isEmpty = false := by
    cases scores with
    | nil => simp at h3
    | cons a l => rfl
  have hlate := lateWindow_eq scores (by omega)
  simp only [updateSessionScores, hne, Bool.false_eq_true, if_false, if_pos h3,
    earlyWindow, hlate, if_pos hpos]

/-- Witness for the amended C1 at the history `[100, 0, 0, 100]`: early
window `[100]`, late window `[0, 100]`, rate `(50 - 100) / 100 * 100 = -50`. -/
theorem improvement_rate_windows_witness :
    (updateSessionScores emptySummary [100, 0, 0, 100]).improvement_rate =
      some (-50) := by
  have ht : ([100, 0, 0, 100] : List ℚ).take (([100, 0, 0, 100] : List ℚ).length / 3) =
      [100] := by decide
  have hd : ([100, 0, 0, 100] : List ℚ).drop
      (([100, 0, 0, 100] : List ℚ).length - (([100, 0, 0, 100] : List ℚ).length + 2) / 3) =
      [0, 100] := by decide
  have h := improvement_rate_windows emptySummary [100, 0, 0, 100] (by decide)
    (by rw [ht]; norm_num [mean, List.sum_cons, List.sum_nil])
  rw [h, ht, hd]
  norm_num [mean, List.sum_cons, List.sum_nil]

/-- Counterexample to C9 as stated: for the bullet line `"- ・キレがある"`
under the good section, stripping exactly the bullet prefix and whitespace
would give the point `"・キレがある"`, but `lstrip('- ・')` also removes the
leading middle dot of the point itself, and the stored point is
`"キレがある"`. -/
theorem bullet_strip_cex :
    claimedStripBullet (pyStrip "- ・キレがある".data) = "・キレがある".data ∧
    (parseFeedback "良い点:\n- ・キレがある").good_points = ["キレがある"] ∧
    ("キレがある" : String) ≠ "・キレがある" := by
  refine ⟨by decide, by decide, by decide⟩

/-- C9 (amended): a non-empty line matching no marker is appended, when it
starts with a bullet prefix, as the line with every leading character of the
set `{'-', ' ', '・'}` removed (Python `lstrip('- ・')`, not just the bullet
prefix) and then trimmed, truncated to the current section's limit (15/15/20
characters); a line starting with neither bullet prefix, or whose stripped
point is empty, or arriving with no current section, changes nothing. -/
theorem bullet_line_behavior (st : PState) (raw : List Char)
    (hne : pyStrip raw ≠ [])
    (hm1 : hasSubstr (pyStrip raw) scoreMarker = false)
    (hm2 : hasSubstr (pyStrip raw) goodMarker = false)
    (hm3 : hasSubstr (pyStrip raw) improveMarker = false)
    (hm4 : hasSubstr (pyStrip raw) adviceLongMarker = false)
    (hm5 : hasSubstr (pyStrip raw) adviceShortMarker = false) :
    ((bulletDash.isPrefixOf (pyStrip raw) || bulletDot.isPrefixOf (pyStrip raw)) = false →
       processLine st raw = st) ∧
    ((bulletDash.isPrefixOf (pyStrip raw) || bulletDot.isPrefixOf (pyStrip raw)) = true →
       (pyStrip (pyLstrip bulletStripSet (pyStrip raw)) = [] → processLine st raw = st) ∧
       (pyStrip (pyLstrip bulletStripSet (pyStrip raw)) ≠ [] →
         (st.current_section = some FSection.good →
            processLine st raw =
              { st with good_points :=
                  st.good_points ++ [(pyStrip (pyLstrip bulletStripSet (pyStrip raw))).take 15] }) ∧
         (st.current_section = some FSection.improve →
            processLine st raw =
              { st with improvement_areas :=
                  st.improvement_areas ++
                    [(pyStrip (pyLstrip bulletStripSet (pyStrip raw))).take 15] }) ∧
         (st.current_section = some FSection.advice →
            processLine st raw =
              { st with specific_advice :=
                  st.specific_advice ++
                    [(pyStrip (pyLstrip bulletStripSet (pyStrip raw))).take 20] }) ∧
         (st.current_section = none → processLine st raw = st))) := by
  have hne' : (pyStrip raw).isEmpty = false := by
    simpa [List.isEmpty_iff] using hne
  constructor
  · intro hb
    simp [processLine, hne', hm1, hm2, hm3, hm4, hm5, hb]
  · intro hb
    constructor
    · intro hp
      simp [processLine, hne', hm1, hm2, hm3, hm4, hm5, hb, hp]
    · intro hp
      have hp' : (pyStrip (pyLstrip bulletStripSet (pyStrip raw))).isEmpty = false := by
        simpa [List.isEmpty_iff] using hp
      refine ⟨fun hsec => ?_, fun hsec => ?_, fun hsec => ?_, fun hsec => ?_⟩ <;>
        simp [processLine, hne', hm1, hm2, hm3, hm4, hm5, hb, hp', hsec]

/-- Witness for the amended C9: processing `"- ・キレがある"` in the good
section appends the fully left-stripped point `"キレがある"`. -/
theorem bullet_line_behavior_witness :
    processLine
      { score := 70, good_points := [], improvement_areas := [],
        specific_advice := [], current_section := some FSection.good }
      "- ・キレがある".data =
    { score := 70, good_points := ["キレがある".data], improvement_areas := [],
      specific_advice := [], current_section := some FSection.good } := by
  have h := bullet_line_behavior
    { score := 70, good_points := [], improvement_areas := [],
      specific_advice := [], current_section := some FSection.good }
    "- ・キレがある".data
    (by decide) (by decide) (by decide) (by decide) (by decide) (by decide)
  have h2 := ((h.2 (by decide)).2 (by decide)).1 rfl
  rw [h2]
  decide

end DanceMotion
